import Mathlib

/-!
Verification development for the Medusa workflow-orchestration surface:
a shallow embedding of the step-signaling OpenAPI operation, the
transaction engine described by the specification, the create-cart
workflow composition, the `PriceListRepository` data-access methods and
the line-item preparation helpers, with theorems settling the stated
properties of each.
-/

namespace StepsSuccessOAS

/-- The `required` list of the request-body schema of
`POST /admin/workflows-executions/{workflow_id}/steps/success`,
transcribed from the generated OAS operation file (lines 64-69). -/
def requiredBodyFields : List String :=
  ["transaction_id", "step_id", "response", "compensate_input", "action"]

/-- The `enum` of the `action` property of the same schema (lines 81-84). -/
def actionEnum : List String :=
  ["invoke", "compensate"]

/-- The `responses` table of the operation: status code paired with the
referenced response component (lines 102-114 of the OAS file). -/
def responses : List (String × String) :=
  [("400", "400_error"),
   ("401", "unauthorized"),
   ("404", "not_found_error"),
   ("409", "invalid_state_error"),
   ("422", "invalid_request_error"),
   ("500", "500_error")]

/-- The status codes of the operation's documented responses. -/
def responseCodes : List String :=
  responses.map Prod.fst

end StepsSuccessOAS

namespace Engine

/-- Step-execution statuses named by the specification (per-step state of
a transaction): pending, success, failed, skipped, compensated. -/
inductive StepStatus
  | pending
  | success
  | failed
  | skipped
  | compensated
deriving DecidableEq, Repr

/-- A status after which the specification's execution log rejects further
writes for the same key (a terminal per-step state). -/
def StepStatus.isTerminal : StepStatus → Bool
  | .pending => false
  | _ => true

/-- The execution log: per-(transaction_id, step_id) status records. -/
abbrev Log := List ((String × String) × StepStatus)

/-- The status recorded for a (transaction_id, step_id) key, if any. -/
def lookupStep (log : Log) (tx step : String) : Option StepStatus :=
  (log.find? (fun e => e.1 == (tx, step))).map (fun e => e.2)

/-- Failure modes of the step-success signal that the modelled endpoint
distinguishes: unknown transaction/step (404) and already-terminal
step (409). -/
inductive SignalErr
  | notFound404
  | conflict409
deriving DecidableEq, Repr

/-- Record success for a (transaction_id, step_id) key in the log. -/
def setSuccess : Log → String → String → Log
  | [], _, _ => []
  | e :: rest, tx, step =>
    if e.1 == (tx, step) then (e.1, StepStatus.success) :: setSuccess rest tx step
    else e :: setSuccess rest tx step

/-- Modelled from the spec: the step signaling endpoint's effect (section 6:
look up the pending step record by (transaction_id, step_id), record the
outcome) combined with section 4.4's execution-log rule that writes for a
key whose recorded status is already terminal are rejected (the 409
conflict), and a missing record is the 404 case. The engine's resumption
of progression is outside this model. -/
def signalStepSuccess (log : Log) (tx step : String) : Except SignalErr Log :=
  match lookupStep log tx step with
  | none => .error .notFound404
  | some st =>
    if st.isTerminal then .error .conflict409
    else .ok (setSuccess log tx step)

theorem lookup_setSuccess (log : Log) (tx step : String) :
    lookupStep (setSuccess log tx step) tx step =
      (lookupStep log tx step).map (fun _ => StepStatus.success) := by
  induction log with
  | nil => rfl
  | cons e rest ih =>
    cases h : e.1 == (tx, step)
    · simpa [lookupStep, setSuccess, List.find?, h] using ih
    · simp [lookupStep, setSuccess, List.find?, h]

/-- A step of a linear workflow as the transaction engine sees it:
an identifier, whether its invoke action eventually succeeds within its
retry policy, and whether its compensate action succeeds. -/
structure EStep where
  sid : Nat
  invokeOk : Bool
  compOk : Bool
deriving DecidableEq, Repr

/-- Transaction statuses of the specification's state machine. -/
inductive TxStatus
  | pending
  | invoking
  | done
  | compensating
  | reverted
deriving DecidableEq, Repr

/-- The observable trace of one transaction run: invoke successes in
completion order, compensate calls in call order, recorded compensation
failures, and the statuses the transaction entered, in order. -/
structure TxTrace where
  succeeded : List Nat
  compensateCalls : List Nat
  compFailures : List Nat
  history : List TxStatus
deriving DecidableEq, Repr

/-- Modelled from the spec: the invoking phase (section 4.3) — steps execute
in order; each invoke either records success (after its retries) or, once a
required step has exhausted its retries, the phase stops and reports the
failing step. Returns the ids that recorded invoke success, in completion
order, and the failing step id when one failed. -/
def invokePhase : List EStep → List Nat → List Nat × Option Nat
  | [], succ => (succ, none)
  | s :: rest, succ =>
    if s.invokeOk then invokePhase rest (succ ++ [s.sid])
    else (succ, some s.sid)

/-- Whether a compensate call on the step with the given id fails. -/
def compFails (steps : List EStep) (i : Nat) : Bool :=
  match steps.find? (fun s => s.sid == i) with
  | some s => !s.compOk
  | none => false

/-- Modelled from the spec: one transaction run of the engine (section 4.3).
PENDING, then INVOKING; if every step's invoke succeeds the transaction is
DONE; when a required step's invoke fails after exhausting retries the
transaction enters COMPENSATING and every previously-succeeded step
receives one compensate call in strict reverse completion order
(last-succeeded-first); a compensation failure is recorded in
`compFailures` but does not stop the sweep, which always attempts every
remaining compensation and ends the transaction REVERTED. -/
def execute (steps : List EStep) : TxTrace :=
  match invokePhase steps [] with
  | (succ, none) =>
    { succeeded := succ
      compensateCalls := []
      compFailures := []
      history := [.pending, .invoking, .done] }
  | (succ, some _) =>
    { succeeded := succ
      compensateCalls := succ.reverse
      compFailures := succ.reverse.filter (compFails steps)
      history := [.pending, .invoking, .compensating, .reverted] }

theorem invokePhase_ignores_comp (f : Nat → Bool) :
    ∀ (steps : List EStep) (acc : List Nat),
      invokePhase (steps.map (fun s => { s with compOk := f s.sid })) acc =
        invokePhase steps acc := by
  intro steps
  induction steps with
  | nil => intro acc; rfl
  | cons s rest ih =>
    intro acc
    cases h : s.invokeOk
    · simp [invokePhase, h]
    · simp [invokePhase, h, ih]

theorem invokePhase_succ_prefix :
    ∀ (steps : List EStep) (acc : List Nat), ∃ tail : List Nat,
      (invokePhase steps acc).1 = acc ++ tail ∧
        (∀ i ∈ tail, ∃ s ∈ steps, s.sid = i ∧ s.invokeOk = true) := by
  intro steps
  induction steps with
  | nil =>
    intro acc
    exact ⟨[], by simp [invokePhase]⟩
  | cons s rest ih =>
    intro acc
    cases h : s.invokeOk
    · exact ⟨[], by simp [invokePhase, h]⟩
    · obtain ⟨tail, h1, h2⟩ := ih (acc ++ [s.sid])
      refine ⟨s.sid :: tail, ?_, ?_⟩
      · simp [invokePhase, h, h1]
      · intro i hi
        rcases List.mem_cons.mp hi with hi | hi
        · exact ⟨s, List.mem_cons_self s rest, hi.symm, h⟩
        · obtain ⟨t, ht, hts, htok⟩ := h2 i hi
          exact ⟨t, List.mem_cons_of_mem s ht, hts, htok⟩

theorem invokePhase_nodup (steps : List EStep) (acc : List Nat)
    (hnd : ((steps.map EStep.sid) ++ acc).Nodup) :
    (invokePhase steps acc).1.Nodup := by
  induction steps generalizing acc with
  | nil => simpa [invokePhase] using hnd
  | cons s rest ih =>
    cases h : s.invokeOk
    · simp only [invokePhase, h, Bool.false_eq_true, if_false]
      simp only [List.map_cons, List.cons_append, List.nodup_cons] at hnd
      exact (List.nodup_append.mp hnd.2).2.1
    · simp only [invokePhase, h, if_true]
      apply ih
      simp only [List.map_cons, List.cons_append, List.nodup_cons] at hnd
      have := hnd.2
      rw [List.nodup_append] at this ⊢
      refine ⟨this.1, ?_, ?_⟩
      · rw [List.nodup_append]
        refine ⟨this.2.1, List.nodup_singleton _, ?_⟩
        intro a ha hb
        rw [List.mem_singleton] at hb
        subst hb
        exact hnd.1 (by simp [ha])
      · intro a ha hb
        rw [List.mem_append] at hb
        rcases hb with hb | hb
        · exact this.2.2 ha hb
        · rw [List.mem_singleton] at hb
          subst hb
          refine hnd.1 ?_
          rw [List.mem_append]
          exact Or.inl ha

theorem invokePhase_fails (steps : List EStep) (acc : List Nat)
    (hf : steps.any (fun s => !s.invokeOk) = true) :
    ∃ i, (invokePhase steps acc).2 = some i := by
  induction steps generalizing acc with
  | nil => simp at hf
  | cons s rest ih =>
    cases h : s.invokeOk
    · exact ⟨s.sid, by simp [invokePhase, h]⟩
    · simp only [List.any_cons, h, Bool.not_true, Bool.false_or] at hf
      simpa [invokePhase, h] using ih (acc ++ [s.sid]) hf

end Engine

namespace CreateCart

/-- A line item of the create-cart input (`CreateCartWorkflowInputDTO`
items), with the fields the workflow body reads. -/
structure ItemInput where
  variant_id : Option String
  title : Option String
  quantity : Nat
  unit_price : Option Nat
  is_tax_inclusive : Option Bool
deriving DecidableEq, Repr

/-- The variantIds transform of createCartWorkflow (source lines 90-92):
`(data.input.items ?? []).map((i) => i.variant_id).filter(isDefined)`. -/
def variantIds (items : Option (List ItemInput)) : List String :=
  ((items.getD []).map ItemInput.variant_id).filterMap id

/-- The condition of the `when` guarding the variants remote-query step
(source line 124): `!!variantIds.length`. -/
def variantsCond (ids : List String) : Bool :=
  ids.length != 0

/-- Modelled from the spec: `when(cond).then(fn)` (section 4.2, the
workflows-sdk combinator is not among the files) — the conditional
sub-graph's node executes only when the condition evaluates truthy at run
time, and a skipped branch leaves the dependent nodes' input for that
output undefined (`none`). -/
def whenThen {α : Type} (cond : Bool) (out : α) : Option α :=
  if cond then some out else none

/-- A product variant row as the variants remote-query step returns it. -/
structure Variant where
  id : String
deriving DecidableEq, Repr

/-- The calculated price of a variant in `data.priceSets`. -/
structure CalculatedPrice where
  calculated_amount : Nat
  is_calculated_price_tax_inclusive : Bool
deriving DecidableEq, Repr

/-- An error escaping a workflow transform: a JavaScript TypeError from
dereferencing undefined, or a thrown MedusaError of the given type. -/
inductive JSError
  | typeError (msg : String)
  | notFound (msg : String)
  | invalidData (msg : String)
deriving DecidableEq, Repr

/-- JavaScript `a || b` on numbers: `a` when defined and nonzero. -/
def jsOrNat (a b : Option Nat) : Option Nat :=
  match a with
  | some n => if n != 0 then some n else b
  | none => b

/-- JavaScript `a || b` on booleans: `a` when `true`, else `b`. -/
def jsOrBool (a b : Option Bool) : Option Bool :=
  match a with
  | some true => some true
  | _ => b

/-- JavaScript truthiness of an optional string: defined and nonempty. -/
def jsTruthyStr : Option String → Bool
  | some s => s != ""
  | none => false

/-- The arguments the lineItems transform hands to `prepareLineItemData`
for one item (the helper itself is not among the files, so the transform's
output is the list of calls made to it). -/
structure PreparedLineItem where
  item : ItemInput
  unitPrice : Nat
  isTaxInclusive : Option Bool
  variant : Option Variant
deriving DecidableEq, Repr

/-- The lineItems transform of createCartWorkflow (source lines 190-218).
For each input item it evaluates `data.variants.find((v) => v.id ===
item.variant_id)` — a TypeError when `variants` is undefined because the
conditional branch was skipped — takes the variant price from
`data.priceSets[item.variant_id]` when `item.variant_id` is truthy,
computes `unitPrice` and `isTaxInclusive` with JavaScript `||`, throws
INVALID_DATA when the unit price is undefined, and otherwise records the
`prepareLineItemData` call. -/
def lineItemsBody (priceSets : String → Option CalculatedPrice)
    (items : Option (List ItemInput)) (variants : Option (List Variant)) :
    Except JSError (List PreparedLineItem) :=
  (items.getD []).mapM (fun item =>
    match variants with
    | none => .error (.typeError "Cannot read properties of undefined (reading find)")
    | some vs =>
      let variant := vs.find? (fun v => some v.id == item.variant_id)
      let variantPrice :=
        match item.variant_id with
        | some vid => if vid != "" then priceSets vid else none
        | none => none
      let unitPrice :=
        jsOrNat item.unit_price (variantPrice.map CalculatedPrice.calculated_amount)
      let isTaxInclusive :=
        jsOrBool item.is_tax_inclusive
          (variantPrice.map CalculatedPrice.is_calculated_price_tax_inclusive)
      match unitPrice with
      | none => .error (.invalidData "Line item missing a unit price")
      | some up =>
        .ok { item := item, unitPrice := up, isTaxInclusive := isTaxInclusive,
              variant := variant })

/-- A create-cart input whose single item is a custom line item: a title,
a quantity and an explicit unit price, but no variant id. -/
def customItems : Option (List ItemInput) :=
  some [{ variant_id := none, title := some "custom", quantity := 1,
          unit_price := some 100, is_tax_inclusive := none }]

/-- The nodes of createCartWorkflow's static execution plan, one per
composition call of the workflow body (source lines 87-263): the input,
the transforms, the steps (the three parallelized ones among them), the
sub-workflow invocations, the event emission and the hook. -/
inductive CNode
  | input
  | variantIds
  | salesChannel
  | region
  | customerData
  | pricingContext
  | variants
  | validateVariantPrices
  | confirmVariantInventory
  | priceSets
  | cartInput
  | lineItems
  | cartToCreate
  | carts
  | cart
  | updateTaxLines
  | updateCartPromotions
  | refreshPaymentCollection
  | emitEvent
  | cartCreatedHook
deriving DecidableEq, Fintype, Repr

/-- The data dependencies of each plan node: exactly the upstream outputs
its composition call reads in the workflow body (the object handed to
`transform`, the step's input arguments, the sub-workflow's input). -/
def deps : CNode → List CNode
  | .input => []
  | .variantIds => [.input]
  | .salesChannel => [.input]
  | .region => [.input]
  | .customerData => [.input]
  | .pricingContext => [.input, .region, .customerData]
  | .variants => [.variantIds, .pricingContext]
  | .validateVariantPrices => [.variants]
  | .confirmVariantInventory => [.salesChannel, .variants, .input]
  | .priceSets => [.variantIds, .pricingContext]
  | .cartInput => [.input, .region, .customerData, .salesChannel]
  | .lineItems => [.priceSets, .input, .variants]
  | .cartToCreate => [.lineItems, .cartInput]
  | .carts => [.cartToCreate]
  | .cart => [.carts]
  | .updateTaxLines => [.cart]
  | .updateCartPromotions => [.cart, .input]
  | .refreshPaymentCollection => [.cart]
  | .emitEvent => [.cart]
  | .cartCreatedHook => [.cart, .input]

/-- The plan's edge relation: `cEdge a b` when node `b` reads node `a`'s
output (`a` is a dependency of `b`). -/
def cEdge (a b : CNode) : Prop :=
  a ∈ deps b

instance (a b : CNode) : Decidable (cEdge a b) := by
  unfold cEdge
  infer_instance

/-- A topological height for the plan's nodes. -/
def rank : CNode → Nat
  | .input => 0
  | .variantIds => 1
  | .salesChannel => 1
  | .region => 1
  | .customerData => 1
  | .pricingContext => 2
  | .cartInput => 2
  | .variants => 3
  | .priceSets => 3
  | .validateVariantPrices => 4
  | .confirmVariantInventory => 4
  | .lineItems => 4
  | .cartToCreate => 5
  | .carts => 6
  | .cart => 7
  | .updateTaxLines => 8
  | .updateCartPromotions => 8
  | .refreshPaymentCollection => 8
  | .emitEvent => 8
  | .cartCreatedHook => 8

/-- The three steps composed with `parallelize` (source lines 94-105). -/
def par3 : List CNode :=
  [.salesChannel, .region, .customerData]

theorem cEdge_rank {a b : CNode} (h : cEdge a b) : rank a < rank b := by
  revert a b
  decide

theorem transGen_rank {a b : CNode} (h : Relation.TransGen cEdge a b) :
    rank a < rank b := by
  induction h with
  | single h => exact cEdge_rank h
  | tail _ h ih => exact lt_trans ih (cEdge_rank h)

end CreateCart

namespace PriceListRepo

/-- A Mikro-ORM entity manager, identified abstractly. -/
structure Manager where
  mid : Nat
deriving DecidableEq, Repr

/-- The unit-of-work/transaction `Context` handed to every repository
method: it may carry a transaction-scoped entity manager and/or a shared
one. -/
structure Context where
  transactionManager : Option Manager
  manager : Option Manager
deriving DecidableEq, Repr

/-- Modelled from the spec: `getActiveManager(context)` of the base
repository class (`DALUtils.MikroOrmBaseRepository`, not among the files)
returns the entity manager of the active unit-of-work/transaction context
when the context supplies one, else the repository's own ambient
manager. -/
def getActiveManager (ambient : Manager) (ctx : Context) : Manager :=
  ((ctx.transactionManager).orElse (fun _ => ctx.manager)).getD ambient

/-- The manager a context supplies, when it supplies one. -/
def contextManager (ctx : Context) : Option Manager :=
  (ctx.transactionManager).orElse (fun _ => ctx.manager)

/-- A `PriceList` entity row. -/
structure PriceList where
  id : String
  title : String
deriving DecidableEq, Repr

/-- `UpdatePriceListDTO`: the id plus the fields to assign. -/
structure UpdatePriceListDTO where
  id : String
  title : Option String
deriving DecidableEq, Repr

/-- `CreatePriceListDTO` without its prices. -/
structure CreatePriceListDTO where
  id : String
  title : String
deriving DecidableEq, Repr

/-- `manager.assign(existingPriceList, priceListData)`: merge the DTO's
defined fields onto the existing entity. -/
def assign (p : PriceList) (d : UpdatePriceListDTO) : PriceList :=
  { p with title := d.title.getD p.title }

/-- Mikro-ORM find options (`findOptions_.options`), with the load
strategy and a representative further field. -/
structure QueryOptions where
  strategy : Option String
  limit : Option Nat
deriving DecidableEq, Repr

/-- The fresh `{}` installed by `findOptions_.options ??= {}`. -/
def emptyOptions : QueryOptions :=
  { strategy := none, limit := none }

/-- `LoadStrategy.SELECT_IN`. -/
def SELECT_IN : String :=
  "select-in"

/-- `DAL.FindOptions`: the where filter (modelled as the id filter the
repository itself uses) and the Mikro-ORM options object, when the caller
supplied one. -/
structure FindOptions where
  whereIds : Option (List String)
  options : Option QueryOptions
deriving DecidableEq, Repr

/-- One issued `manager.find` / `manager.findAndCount` database call. -/
structure FindCall where
  manager : Manager
  whereIds : Option (List String)
  options : QueryOptions
deriving DecidableEq, Repr

/-- `PriceListRepository.find` (source lines 26-44): the manager comes
from `getActiveManager(context)`; `findOptions_` is a shallow copy of
`findOptions`, so `findOptions_.options` IS the caller's options object
when the caller supplied one, and `Object.assign` sets the SELECT_IN load
strategy on that shared object. Returns the rows, the issued call, and
the caller's options object as observable after the call (`none` when the
caller supplied none — the fresh `{}` installed by `??=` is not the
caller's object). -/
def find (ambient : Manager) (db : List PriceList) (findOptions : FindOptions)
    (ctx : Context) : List PriceList × FindCall × Option QueryOptions :=
  let manager := getActiveManager ambient ctx
  let opts :=
    match findOptions.options with
    | some o => { o with strategy := some SELECT_IN }
    | none => { emptyOptions with strategy := some SELECT_IN }
  let callerAfter :=
    (findOptions.options).map (fun o => { o with strategy := some SELECT_IN })
  let rows :=
    match findOptions.whereIds with
    | some ids => db.filter (fun p => ids.contains p.id)
    | none => db
  (rows, { manager := manager, whereIds := findOptions.whereIds, options := opts },
    callerAfter)

/-- `PriceListRepository.findAndCount` (source lines 46-64): same body as
`find`, returning the rows together with their count. -/
def findAndCount (ambient : Manager) (db : List PriceList)
    (findOptions : FindOptions) (ctx : Context) :
    (List PriceList × Nat) × FindCall × Option QueryOptions :=
  let manager := getActiveManager ambient ctx
  let opts :=
    match findOptions.options with
    | some o => { o with strategy := some SELECT_IN }
    | none => { emptyOptions with strategy := some SELECT_IN }
  let callerAfter :=
    (findOptions.options).map (fun o => { o with strategy := some SELECT_IN })
  let rows :=
    match findOptions.whereIds with
    | some ids => db.filter (fun p => ids.contains p.id)
    | none => db
  ((rows, rows.length),
    { manager := manager, whereIds := findOptions.whereIds, options := opts },
    callerAfter)

/-- One issued `manager.nativeDelete` call. -/
structure DeleteCall where
  manager : Manager
  ids : List String
deriving DecidableEq, Repr

/-- `PriceListRepository.delete` (source lines 66-69): nativeDelete of the
rows whose id is in `ids`, through the active manager. Returns the
surviving rows and the issued call. -/
def delete (ambient : Manager) (db : List PriceList) (ids : List String)
    (ctx : Context) : List PriceList × DeleteCall :=
  let manager := getActiveManager ambient ctx
  (db.filter (fun p => !(ids.contains p.id)), { manager := manager, ids := ids })

/-- One issued `manager.persistAndFlush` call. -/
structure CreateCall where
  manager : Manager
  persistedAndFlushed : List PriceList
deriving DecidableEq, Repr

/-- `PriceListRepository.create` (source lines 71-84): map each DTO
through `manager.create` and hand the batch to `manager.persistAndFlush`
on the active manager. -/
def create (ambient : Manager) (data : List CreatePriceListDTO) (ctx : Context) :
    List PriceList × CreateCall :=
  let manager := getActiveManager ambient ctx
  let priceLists := data.map (fun d => { id := d.id, title := d.title : PriceList })
  (priceLists, { manager := manager, persistedAndFlushed := priceLists })

/-- A thrown `MedusaError`. -/
inductive MedusaErr
  | notFound (msg : String)
deriving DecidableEq, Repr

/-- The `data.map` body of `update`: for each DTO in order, the existing
entity with its id or a thrown NOT_FOUND naming the id, assigning the DTO
onto the found entity. The first missing id in `data` order aborts the
whole map, exactly as the thrown exception does. -/
def assignAll (existing : List PriceList) :
    List UpdatePriceListDTO → Except MedusaErr (List PriceList)
  | [] => .ok []
  | d :: rest =>
    match existing.find? (fun p => p.id == d.id) with
    | none =>
      .error (.notFound ("PriceList with id \"" ++ d.id ++ "\" not found"))
    | some p =>
      match assignAll existing rest with
      | .error e => .error e
      | .ok ms => .ok (assign p d :: ms)

/-- The observable outcome of `PriceListRepository.update`: the active
manager it used, the returned entities or the thrown error, and the
batches handed to `manager.persist`. -/
structure UpdateCall where
  manager : Manager
  result : Except MedusaErr (List PriceList)
  persisted : List (List PriceList)
deriving Repr

/-- `PriceListRepository.update` (source lines 86-127): find the existing
price lists whose id is among the DTO ids (through `this.find` with the
same context), then map each DTO in order to its assigned entity —
throwing NOT_FOUND naming the first missing id — and only when every DTO
found its entity is the assigned batch handed to `manager.persist`; the
throw escapes before `persist` runs, so an error means nothing was handed
to persist. -/
def update (ambient : Manager) (db : List PriceList)
    (data : List UpdatePriceListDTO) (ctx : Context) : UpdateCall :=
  let manager := getActiveManager ambient ctx
  let priceListIds := data.map UpdatePriceListDTO.id
  let existingPriceLists :=
    (find ambient db { whereIds := some priceListIds, options := none } ctx).1
  match assignAll existingPriceLists data with
  | .error e => { manager := manager, result := .error e, persisted := [] }
  | .ok ms => { manager := manager, result := .ok ms, persisted := [ms] }

theorem find?_filtered_none (db : List PriceList) (ids : List String) (i : String)
    (hnone : db.any (fun p => p.id == i) = false) :
    (db.filter (fun p => ids.contains p.id)).find? (fun p => p.id == i) = none := by
  rw [List.find?_eq_none]
  intro p hp
  rw [List.mem_filter] at hp
  rw [List.any_eq_false] at hnone
  exact hnone p hp.1

theorem find?_filtered_some (db : List PriceList) (ids : List String) (i : String)
    (hin : i ∈ ids) (hany : db.any (fun p => p.id == i) = true) :
    ∃ p, (db.filter (fun q => ids.contains q.id)).find? (fun q => q.id == i) = some p := by
  rw [List.any_eq_true] at hany
  obtain ⟨p, hp, hpi⟩ := hany
  have hpid : p.id = i := by simpa using hpi
  have hmem : p ∈ db.filter (fun q => ids.contains q.id) := by
    rw [List.mem_filter]
    exact ⟨hp, by simp [List.contains, hpid, hin]⟩
  have hsome : ((db.filter (fun q => ids.contains q.id)).find?
      (fun q => q.id == i)).isSome := by
    rw [List.find?_isSome]
    exact ⟨p, hmem, hpi⟩
  obtain ⟨q, hq⟩ := Option.isSome_iff_exists.mp hsome
  exact ⟨q, hq⟩

theorem assignAll_first_missing (db : List PriceList) (ids : List String)
    (data : List UpdatePriceListDTO) (d : UpdatePriceListDTO)
    (hids : ∀ x ∈ data, x.id ∈ ids)
    (hd : data.find? (fun x => !(db.any (fun p => p.id == x.id))) = some d) :
    assignAll (db.filter (fun p => ids.contains p.id)) data =
      .error (.notFound ("PriceList with id \"" ++ d.id ++ "\" not found")) := by
  induction data with
  | nil => simp at hd
  | cons x rest ih =>
    cases hx : db.any (fun p => p.id == x.id)
    · simp only [List.find?, hx, Bool.not_false, Option.some.injEq] at hd
      subst hd
      have hnone := find?_filtered_none db ids x.id hx
      simp only [assignAll]
      rw [hnone]
    · simp only [List.find?, hx, Bool.not_true] at hd
      obtain ⟨p, hp⟩ := find?_filtered_some db ids x.id (hids x (by simp)) hx
      have hrest := ih (fun y hy => hids y (by simp [hy])) hd
      simp only [assignAll]
      rw [hp, hrest]

end PriceListRepo

namespace CreateCart

/-- A country of a region. -/
structure Country where
  iso_2 : String
deriving DecidableEq, Repr

/-- The region resolved by findOneOrAnyRegionStep. -/
structure Region where
  id : String
  currency_code : String
  countries : List Country
deriving DecidableEq, Repr

/-- The customer resolved by findOrCreateCustomerStep. -/
structure Customer where
  id : Option String
  email : Option String
deriving DecidableEq, Repr

/-- The customerData output of findOrCreateCustomerStep. -/
structure CustomerData where
  customer : Option Customer
deriving DecidableEq, Repr

/-- The sales channel resolved by findSalesChannelStep. -/
structure SalesChannel where
  id : Option String
deriving DecidableEq, Repr

/-- A shipping address, with the field the workflow writes. -/
structure ShippingAddress where
  country_code : Option String
deriving DecidableEq, Repr

/-- The fields of `CreateCartWorkflowInputDTO` that the cartInput
transform reads or forwards. -/
structure CartInputDTO where
  currency_code : Option String
  region_id : Option String
  customer_id : Option String
  email : Option String
  sales_channel_id : Option String
  shipping_address : Option ShippingAddress
deriving DecidableEq, Repr

/-- The `data_` object the cartInput transform builds. -/
structure CartData where
  currency_code : String
  region_id : String
  customer_id : Option String
  email : Option String
  sales_channel_id : Option String
  shipping_address : Option ShippingAddress
deriving DecidableEq, Repr

/-- The spread `{ ...data.input, currency_code: input.currency_code ??
region.currency_code, region_id: region.id }` opening the transform
(source lines 161-165). -/
def baseCartData (input : CartInputDTO) (region : Region) : CartData :=
  { currency_code := input.currency_code.getD region.currency_code
    region_id := region.id
    customer_id := input.customer_id
    email := input.email
    sales_channel_id := input.sales_channel_id
    shipping_address := input.shipping_address }

/-- `if (data.customerData.customer?.id) { data_.customer_id = ...;
data_.email = data.input?.email ?? data.customerData.customer.email }`
(source lines 167-170). -/
def applyCustomer (input : CartInputDTO) (customerData : CustomerData)
    (d : CartData) : CartData :=
  match customerData.customer with
  | some c =>
    if jsTruthyStr c.id then
      { d with customer_id := c.id, email := input.email.orElse (fun _ => c.email) }
    else d
  | none => d

/-- `if (data.salesChannel?.id) { data_.sales_channel_id = ... }`
(source lines 172-174). -/
def applySalesChannel (salesChannel : Option SalesChannel) (d : CartData) :
    CartData :=
  match salesChannel with
  | some sc => if jsTruthyStr sc.id then { d with sales_channel_id := sc.id } else d
  | none => d

/-- `if (!data.input.shipping_address && data.region.countries.length ===
1) { data_.shipping_address = { country_code: countries[0].iso_2 } }`
(source lines 177-184). -/
def applyShipping (input : CartInputDTO) (region : Region) (d : CartData) :
    CartData :=
  if input.shipping_address.isNone && (region.countries.length == 1) then
    let country := region.countries.headD { iso_2 := "" }
    { d with shipping_address := some { country_code := some country.iso_2 } }
  else d

/-- The cartInput transform body after the region null check, as the
sequence of in-place mutations the source performs on `data_`. -/
def cartInputData (input : CartInputDTO) (region : Region)
    (customerData : CustomerData) (salesChannel : Option SalesChannel) : CartData :=
  applyShipping input region
    (applySalesChannel salesChannel
      (applyCustomer input customerData (baseCartData input region)))

/-- The cartInput transform of createCartWorkflow (source lines 154-188):
NOT_FOUND when no region resolved, else the built cart data. -/
def cartInputTransform (input : CartInputDTO) (region : Option Region)
    (customerData : CustomerData) (salesChannel : Option SalesChannel) :
    Except JSError CartData :=
  match region with
  | none => .error (.notFound "No regions found")
  | some r => .ok (cartInputData input r customerData salesChannel)

theorem applyShipping_currency (input : CartInputDTO) (region : Region)
    (d : CartData) : (applyShipping input region d).currency_code = d.currency_code := by
  unfold applyShipping
  split <;> rfl

theorem applySalesChannel_currency (sc : Option SalesChannel) (d : CartData) :
    (applySalesChannel sc d).currency_code = d.currency_code := by
  unfold applySalesChannel
  split
  · split <;> rfl
  · rfl

theorem applyCustomer_currency (input : CartInputDTO) (cd : CustomerData)
    (d : CartData) : (applyCustomer input cd d).currency_code = d.currency_code := by
  unfold applyCustomer
  split
  · split <;> rfl
  · rfl

theorem applyShipping_customer (input : CartInputDTO) (region : Region)
    (d : CartData) : (applyShipping input region d).customer_id = d.customer_id ∧
      (applyShipping input region d).email = d.email := by
  unfold applyShipping
  split <;> exact ⟨rfl, rfl⟩

theorem applySalesChannel_customer (sc : Option SalesChannel) (d : CartData) :
    (applySalesChannel sc d).customer_id = d.customer_id ∧
      (applySalesChannel sc d).email = d.email := by
  unfold applySalesChannel
  split
  · split <;> exact ⟨rfl, rfl⟩
  · exact ⟨rfl, rfl⟩

theorem applySalesChannel_shipping (sc : Option SalesChannel) (d : CartData) :
    (applySalesChannel sc d).shipping_address = d.shipping_address := by
  unfold applySalesChannel
  split
  · split <;> rfl
  · rfl

theorem applyCustomer_shipping (input : CartInputDTO) (cd : CustomerData)
    (d : CartData) : (applyCustomer input cd d).shipping_address = d.shipping_address := by
  unfold applyCustomer
  split
  · split <;> rfl
  · rfl

end CreateCart

namespace CustomLineItem

/-- The fields of the `item` argument that `prepareCustomLineItemData`
reads. -/
structure ItemLike where
  quantity : Option Nat
  title : Option String
  metadata : Option (List (String × String))
deriving DecidableEq, Repr

/-- The object `prepareCustomLineItemData` returns, with one optional
field per key it may carry: `none` means the key is absent from the
returned object. -/
structure LineItemObj (τ α : Type) where
  quantity : Option Nat
  title : Option String
  unit_price : Option Nat
  is_tax_inclusive : Option Bool
  metadata : List (String × String)
  tax_lines : Option (List τ)
  adjustments : Option (List α)

/-- `prepareCustomLineItemData` (source lines 405-428): builds the line
item from `item?.quantity`, `item?.title` and `item?.metadata ?? {}`; the
`unit_price` and `is_tax_inclusive` assignments are commented out in the
source, so the object never carries them; `tax_lines` is set iff the
`taxLines` argument is truthy (any array is) and `adjustments` iff the
`adjustments` argument is. The helpers `prepareTaxLinesData` and
`prepareAdjustmentsData` are not among the files and are taken as
parameters. -/
def prepareCustomLineItemData {τ τ2 α α2 : Type}
    (prepareTaxLinesData : List τ → List τ2)
    (prepareAdjustmentsData : List α → List α2)
    (item : Option ItemLike) (taxLines : Option (List τ))
    (adjustments : Option (List α)) : LineItemObj τ2 α2 :=
  { quantity := item.bind ItemLike.quantity
    title := item.bind ItemLike.title
    unit_price := none
    is_tax_inclusive := none
    metadata := (item.bind ItemLike.metadata).getD []
    tax_lines := taxLines.map prepareTaxLinesData
    adjustments := adjustments.map prepareAdjustmentsData }

end CustomLineItem

/-- The price-list store of the C7 witness: only pl_1 exists. -/
def updDb : List PriceListRepo.PriceList :=
  [{ id := "pl_1", title := "winter" }]

/-- The update data of the C7 witness: it addresses the absent pl_2. -/
def updData : List PriceListRepo.UpdatePriceListDTO :=
  [{ id := "pl_2", title := some "x" }]

/-- The single DTO of `updData`. -/
def updDto : PriceListRepo.UpdatePriceListDTO :=
  { id := "pl_2", title := some "x" }

/-- A context supplying no manager. -/
def noCtx : PriceListRepo.Context :=
  { transactionManager := none, manager := none }

/-- The 3-step workflow of the specification's test scenario: step 2's
invoke fails after exhausting its retries, steps 1 and 3 would succeed. -/
def steps3 : List Engine.EStep :=
  [{ sid := 1, invokeOk := true, compOk := true },
   { sid := 2, invokeOk := false, compOk := true },
   { sid := 3, invokeOk := true, compOk := true }]

/-- C1 (counterexample): the claim says `response` is required in the invoke
case and `compensate_input` in the compensate case, one of the two selected
by the case; the generated schema instead requires both simultaneously and
unconditionally, so its required list is neither of the two case-selected
lists the claim describes. -/
theorem claim_C1_counterexample :
    "response" ∈ StepsSuccessOAS.requiredBodyFields ∧
    "compensate_input" ∈ StepsSuccessOAS.requiredBodyFields ∧
    StepsSuccessOAS.requiredBodyFields ≠
      ["transaction_id", "step_id", "response", "action"] ∧
    StepsSuccessOAS.requiredBodyFields ≠
      ["transaction_id", "step_id", "compensate_input", "action"] := by
  decide

/-- C1 (amended): the required request-body fields of the step-success
operation are exactly transaction_id, step_id, response, compensate_input
and action — both response and compensate_input are required
unconditionally, with no selection by case — and action's value is one of
invoke or compensate. -/
theorem claim_C1_required_fields :
    StepsSuccessOAS.requiredBodyFields =
      ["transaction_id", "step_id", "response", "compensate_input", "action"] ∧
    StepsSuccessOAS.requiredBodyFields.Nodup ∧
    StepsSuccessOAS.actionEnum = ["invoke", "compensate"] := by
  decide

/-- C2 (counterexample): the operation also documents a 401 unauthorized
response, so its failure responses are not exactly the five the claim
lists. -/
theorem claim_C2_counterexample :
    "401" ∈ StepsSuccessOAS.responseCodes ∧
    "401" ∉ ["400", "404", "409", "422", "500"] := by
  decide

/-- C2 (amended): the step signaling endpoint's failure responses are
exactly 400 (malformed body), 401 (unauthorized), 404 (unknown
transaction/step), 409 (step already in a terminal state, the
invalid-state conflict), 422 (semantically invalid payload) and 500
(internal); and, in the engine model, signaling success for an unknown
record is the 404 error, signaling success for a record already in a
terminal state is rejected with the 409 conflict and leaves the log
unchanged (no re-triggered progression), and signaling a non-terminal
record records success. -/
theorem claim_C2_failure_responses :
    StepsSuccessOAS.responseCodes = ["400", "401", "404", "409", "422", "500"] ∧
    ("409", "invalid_state_error") ∈ StepsSuccessOAS.responses ∧
    (∀ log tx step, Engine.lookupStep log tx step = none →
      Engine.signalStepSuccess log tx step = .error .notFound404) ∧
    (∀ log tx step st, Engine.lookupStep log tx step = some st →
      st.isTerminal = true →
      Engine.signalStepSuccess log tx step = .error .conflict409) ∧
    (∀ log tx step st, Engine.lookupStep log tx step = some st →
      st.isTerminal = false →
      Engine.signalStepSuccess log tx step = .ok (Engine.setSuccess log tx step) ∧
      Engine.lookupStep (Engine.setSuccess log tx step) tx step =
        some Engine.StepStatus.success) := by
  refine ⟨by decide, by decide, ?_, ?_, ?_⟩
  · intro log tx step h
    simp [Engine.signalStepSuccess, h]
  · intro log tx step st h ht
    simp [Engine.signalStepSuccess, h, ht]
  · intro log tx step st h ht
    refine ⟨by simp [Engine.signalStepSuccess, h, ht], ?_⟩
    rw [Engine.lookup_setSuccess, h]
    rfl

/-- C3: when a required step's invoke fails after exhausting its retries,
the transaction enters COMPENSATING and every previously successful step
receives exactly one compensate call, in strict reverse completion order;
steps that never recorded invoke success never receive a compensate call;
and the set and order of compensate calls do not depend on which
compensations fail (a compensation failure does not block the remaining
compensations). -/
theorem claim_C3_reverse_compensation (steps : List Engine.EStep)
    (hnd : (steps.map Engine.EStep.sid).Nodup)
    (hf : steps.any (fun s => !s.invokeOk) = true) :
    Engine.TxStatus.compensating ∈ (Engine.execute steps).history ∧
    (Engine.execute steps).compensateCalls =
      (Engine.execute steps).succeeded.reverse ∧
    (∀ i ∈ (Engine.execute steps).succeeded,
      (Engine.execute steps).compensateCalls.count i = 1) ∧
    (∀ s ∈ steps, s.sid ∉ (Engine.execute steps).succeeded →
      s.sid ∉ (Engine.execute steps).compensateCalls) ∧
    (∀ f : Nat → Bool,
      (Engine.execute (steps.map (fun s => { s with compOk := f s.sid }))).compensateCalls =
        (Engine.execute steps).compensateCalls) := by
  obtain ⟨i, hi⟩ := Engine.invokePhase_fails steps [] hf
  have hsucc : (Engine.invokePhase steps []).1.Nodup :=
    Engine.invokePhase_nodup steps [] (by simpa using hnd)
  rcases hp : Engine.invokePhase steps [] with ⟨succ, fo⟩
  rw [hp] at hi hsucc
  simp only at hi hsucc
  subst hi
  have hex : Engine.execute steps =
      { succeeded := succ
        compensateCalls := succ.reverse
        compFailures := succ.reverse.filter (Engine.compFails steps)
        history := [.pending, .invoking, .compensating, .reverted] } := by
    simp [Engine.execute, hp]
  rw [hex]
  refine ⟨by simp, rfl, ?_, ?_, ?_⟩
  · intro j hj
    simp only at hj ⊢
    rw [List.count_reverse]
    exact List.count_eq_one_of_mem hsucc hj
  · intro s _ hns
    simp only at hns ⊢
    simpa [List.mem_reverse] using hns
  · intro f
    have hmap : Engine.invokePhase
        (steps.map (fun s => { s with compOk := f s.sid })) [] = (succ, some i) := by
      rw [Engine.invokePhase_ignores_comp]
      exact hp
    simp [Engine.execute, hmap]

/-- Witness for C3 at the specification's own test scenario: a 3-step
workflow whose step 2 fails. -/
theorem claim_C3_witness :
    ((steps3.map Engine.EStep.sid).Nodup ∧
      steps3.any (fun s => !s.invokeOk) = true) ∧
    (Engine.TxStatus.compensating ∈ (Engine.execute steps3).history ∧
    (Engine.execute steps3).compensateCalls =
      (Engine.execute steps3).succeeded.reverse ∧
    (∀ i ∈ (Engine.execute steps3).succeeded,
      (Engine.execute steps3).compensateCalls.count i = 1) ∧
    (∀ s ∈ steps3, s.sid ∉ (Engine.execute steps3).succeeded →
      s.sid ∉ (Engine.execute steps3).compensateCalls) ∧
    (∀ f : Nat → Bool,
      (Engine.execute (steps3.map (fun s => { s with compOk := f s.sid }))).compensateCalls =
        (Engine.execute steps3).compensateCalls)) :=
  ⟨⟨by decide, by decide⟩,
    claim_C3_reverse_compensation steps3 (by decide) (by decide)⟩

/-- C4 (code evaluated at the failing input): with a create-cart input
whose items are custom line items carrying no variant id, the variantIds
transform yields the empty list, so the `when` condition is false and the
variants remote-query step is never invoked (the branch output is the
undefined marker `none`) — but the lineItems transform, handed that
undefined value, throws a TypeError by dereferencing `data.variants`
instead of handling the absent output, contradicting the claim that it
does not throw an unhandled null-dereference. -/
theorem claim_C4_null_deref :
    CreateCart.variantIds CreateCart.customItems = [] ∧
    CreateCart.variantsCond (CreateCart.variantIds CreateCart.customItems) = false ∧
    CreateCart.whenThen
      (CreateCart.variantsCond (CreateCart.variantIds CreateCart.customItems)) () = none ∧
    CreateCart.lineItemsBody (fun _ => none) CreateCart.customItems none =
      .error (.typeError "Cannot read properties of undefined (reading find)") :=
  ⟨rfl, rfl, rfl, rfl⟩

/-- C5: the create-cart execution plan is a DAG — no node transitively
depends on itself — whose edges are the data dependencies read off each
composition call; and the three steps composed with `parallelize`
(findSalesChannelStep, findOneOrAnyRegionStep, findOrCreateCustomerStep)
have no ordering dependency among them in the plan: none of them reaches
another through the dependency relation, each reading only the workflow
input. -/
theorem claim_C5_dag_parallelize :
    (∀ n : CreateCart.CNode, ¬ Relation.TransGen CreateCart.cEdge n n) ∧
    (∀ a ∈ CreateCart.par3, ∀ b ∈ CreateCart.par3,
      ¬ Relation.TransGen CreateCart.cEdge a b) ∧
    CreateCart.deps CreateCart.CNode.salesChannel = [CreateCart.CNode.input] ∧
    CreateCart.deps CreateCart.CNode.region = [CreateCart.CNode.input] ∧
    CreateCart.deps CreateCart.CNode.customerData = [CreateCart.CNode.input] := by
  refine ⟨?_, ?_, rfl, rfl, rfl⟩
  · intro n h
    exact lt_irrefl _ (CreateCart.transGen_rank h)
  · intro a ha b hb h
    have hr := CreateCart.transGen_rank h
    fin_cases ha <;> fin_cases hb <;> exact absurd hr (by decide)

/-- C6: the persistence interface consists of find, findAndCount, create,
update and delete, and each of the five obtains its entity manager from
the unit-of-work/transaction context passed in — whenever the context
supplies a manager, every operation runs on that manager, whatever the
repository's ambient manager is. -/
theorem claim_C6_context_scoped (ambient : PriceListRepo.Manager)
    (db : List PriceListRepo.PriceList) (fo : PriceListRepo.FindOptions)
    (ids : List String) (cdata : List PriceListRepo.CreatePriceListDTO)
    (udata : List PriceListRepo.UpdatePriceListDTO)
    (ctx : PriceListRepo.Context) (m : PriceListRepo.Manager)
    (hctx : PriceListRepo.contextManager ctx = some m) :
    (PriceListRepo.find ambient db fo ctx).2.1.manager = m ∧
    (PriceListRepo.findAndCount ambient db fo ctx).2.1.manager = m ∧
    (PriceListRepo.delete ambient db ids ctx).2.manager = m ∧
    (PriceListRepo.create ambient cdata ctx).2.manager = m ∧
    (PriceListRepo.update ambient db udata ctx).manager = m := by
  have hm : PriceListRepo.getActiveManager ambient ctx = m := by
    unfold PriceListRepo.getActiveManager
    unfold PriceListRepo.contextManager at hctx
    rw [hctx]
    rfl
  refine ⟨?_, ?_, ?_, ?_, ?_⟩
  · simp [PriceListRepo.find, hm]
  · simp [PriceListRepo.findAndCount, hm]
  · simp [PriceListRepo.delete, hm]
  · simp [PriceListRepo.create, hm]
  · simp only [PriceListRepo.update]
    split <;> simp [hm]

/-- Witness for C6: a context carrying transaction manager 7 scopes all
five operations to manager 7, with ambient manager 0. -/
theorem claim_C6_witness :
    PriceListRepo.contextManager
      { transactionManager := some { mid := 7 }, manager := none } =
        some { mid := 7 } ∧
    ((PriceListRepo.find { mid := 0 } [] { whereIds := none, options := none }
        { transactionManager := some { mid := 7 }, manager := none }).2.1.manager =
        { mid := 7 } ∧
    (PriceListRepo.findAndCount { mid := 0 } [] { whereIds := none, options := none }
        { transactionManager := some { mid := 7 }, manager := none }).2.1.manager =
        { mid := 7 } ∧
    (PriceListRepo.delete { mid := 0 } [] []
        { transactionManager := some { mid := 7 }, manager := none }).2.manager =
        { mid := 7 } ∧
    (PriceListRepo.create { mid := 0 } []
        { transactionManager := some { mid := 7 }, manager := none }).2.manager =
        { mid := 7 } ∧
    (PriceListRepo.update { mid := 0 } [] []
        { transactionManager := some { mid := 7 }, manager := none }).manager =
        { mid := 7 }) :=
  ⟨rfl,
    claim_C6_context_scoped { mid := 0 } [] { whereIds := none, options := none }
      [] [] [] { transactionManager := some { mid := 7 }, manager := none }
      { mid := 7 } rfl⟩

/-- C7: whenever some id in the update data has no existing price list,
`PriceListRepository.update` fails with a NOT_FOUND error naming the first
such missing id, and nothing is handed to the manager's persist. -/
theorem claim_C7_update_notfound (ambient : PriceListRepo.Manager)
    (db : List PriceListRepo.PriceList)
    (data : List PriceListRepo.UpdatePriceListDTO)
    (ctx : PriceListRepo.Context) (d : PriceListRepo.UpdatePriceListDTO)
    (hd : data.find? (fun x => !(db.any (fun p => p.id == x.id))) = some d) :
    (PriceListRepo.update ambient db data ctx).result =
      .error (.notFound ("PriceList with id \"" ++ d.id ++ "\" not found")) ∧
    (PriceListRepo.update ambient db data ctx).persisted = [] := by
  have h := PriceListRepo.assignAll_first_missing db
    (data.map PriceListRepo.UpdatePriceListDTO.id) data d
    (fun x hx => List.mem_map_of_mem _ hx) hd
  constructor <;>
    · simp only [PriceListRepo.update, PriceListRepo.find]
      rw [h]

/-- Witness for C7: updating price list pl_2 against a store holding only
pl_1 throws NOT_FOUND naming pl_2 and persists nothing. -/
theorem claim_C7_witness :
    (updData.find? (fun x => !(updDb.any (fun p => p.id == x.id))) = some updDto) ∧
    ((PriceListRepo.update { mid := 0 } updDb updData noCtx).result =
      .error (.notFound ("PriceList with id \"" ++ updDto.id ++ "\" not found")) ∧
    (PriceListRepo.update { mid := 0 } updDb updData noCtx).persisted = []) :=
  ⟨rfl, claim_C7_update_notfound { mid := 0 } updDb updData noCtx updDto rfl⟩

/-- C8: every `find` and `findAndCount` query runs with the SELECT_IN load
strategy regardless of the strategy the caller supplied; and when the
caller provides an options object, that very object — shared with the
method's shallow copy of findOptions — ends up mutated to carry the
SELECT_IN strategy, while a caller who supplied none keeps none. -/
theorem claim_C8_select_in_mutation (ambient : PriceListRepo.Manager)
    (db : List PriceListRepo.PriceList) (fo : PriceListRepo.FindOptions)
    (ctx : PriceListRepo.Context) :
    (PriceListRepo.find ambient db fo ctx).2.1.options.strategy =
      some PriceListRepo.SELECT_IN ∧
    (PriceListRepo.findAndCount ambient db fo ctx).2.1.options.strategy =
      some PriceListRepo.SELECT_IN ∧
    (∀ o, fo.options = some o →
      (PriceListRepo.find ambient db fo ctx).2.2 =
        some { o with strategy := some PriceListRepo.SELECT_IN } ∧
      (PriceListRepo.findAndCount ambient db fo ctx).2.2 =
        some { o with strategy := some PriceListRepo.SELECT_IN }) ∧
    (fo.options = none →
      (PriceListRepo.find ambient db fo ctx).2.2 = none ∧
      (PriceListRepo.findAndCount ambient db fo ctx).2.2 = none) := by
  refine ⟨?_, ?_, ?_, ?_⟩
  · cases h : fo.options <;> simp [PriceListRepo.find, h]
  · cases h : fo.options <;> simp [PriceListRepo.findAndCount, h]
  · intro o ho
    constructor <;> simp [PriceListRepo.find, PriceListRepo.findAndCount, ho]
  · intro ho
    constructor <;> simp [PriceListRepo.find, PriceListRepo.findAndCount, ho]

/-- C9: for every input, the object prepareCustomLineItemData returns
carries no unit_price key and no is_tax_inclusive key (despite the
declared Output type requiring both); its metadata is the item's
metadata, or empty when the item or its metadata is absent; and it
carries a tax_lines key iff the taxLines argument is truthy (defined) and
an adjustments key iff the adjustments argument is truthy (defined). -/
theorem claim_C9_custom_line_item {τ τ2 α α2 : Type}
    (pt : List τ → List τ2) (pa : List α → List α2)
    (item : Option CustomLineItem.ItemLike) (taxLines : Option (List τ))
    (adjustments : Option (List α)) :
    (CustomLineItem.prepareCustomLineItemData pt pa item taxLines
      adjustments).unit_price = none ∧
    (CustomLineItem.prepareCustomLineItemData pt pa item taxLines
      adjustments).is_tax_inclusive = none ∧
    (∀ i m, item = some i → i.metadata = some m →
      (CustomLineItem.prepareCustomLineItemData pt pa item taxLines
        adjustments).metadata = m) ∧
    (∀ i, item = some i → i.metadata = none →
      (CustomLineItem.prepareCustomLineItemData pt pa item taxLines
        adjustments).metadata = []) ∧
    (item = none →
      (CustomLineItem.prepareCustomLineItemData pt pa item taxLines
        adjustments).metadata = []) ∧
    (∀ ts, taxLines = some ts →
      (CustomLineItem.prepareCustomLineItemData pt pa item taxLines
        adjustments).tax_lines = some (pt ts)) ∧
    (taxLines = none →
      (CustomLineItem.prepareCustomLineItemData pt pa item taxLines
        adjustments).tax_lines = none) ∧
    (∀ ads, adjustments = some ads →
      (CustomLineItem.prepareCustomLineItemData pt pa item taxLines
        adjustments).adjustments = some (pa ads)) ∧
    (adjustments = none →
      (CustomLineItem.prepareCustomLineItemData pt pa item taxLines
        adjustments).adjustments = none) := by
  refine ⟨rfl, rfl, ?_, ?_, ?_, ?_, ?_, ?_, ?_⟩
  · intro i m h1 h2
    simp [CustomLineItem.prepareCustomLineItemData, h1, h2]
  · intro i h1 h2
    simp [CustomLineItem.prepareCustomLineItemData, h1, h2]
  · intro h
    simp [CustomLineItem.prepareCustomLineItemData, h]
  · intro ts h
    simp [CustomLineItem.prepareCustomLineItemData, h]
  · intro h
    simp [CustomLineItem.prepareCustomLineItemData, h]
  · intro ads h
    simp [CustomLineItem.prepareCustomLineItemData, h]
  · intro h
    simp [CustomLineItem.prepareCustomLineItemData, h]

/-- C10: in the create-cart cartInput transform, given a resolved region:
the cart's currency_code is the input's when defined, otherwise the
region's; customer_id and email are set only when the resolved customer
has a truthy id — email being the input's when defined, otherwise the
customer's — and keep the input's values otherwise; and when the input
has no shipping_address and the region has exactly one country, the
shipping_address becomes an address with that country's iso_2 code,
otherwise the input's shipping_address is left as given. -/
theorem claim_C10_cart_input (input : CreateCart.CartInputDTO)
    (r : CreateCart.Region) (cust : CreateCart.CustomerData)
    (sc : Option CreateCart.SalesChannel) :
    CreateCart.cartInputTransform input (some r) cust sc =
      .ok (CreateCart.cartInputData input r cust sc) ∧
    (CreateCart.cartInputData input r cust sc).currency_code =
      input.currency_code.getD r.currency_code ∧
    (∀ c, cust.customer = some c → CreateCart.jsTruthyStr c.id = true →
      (CreateCart.cartInputData input r cust sc).customer_id = c.id ∧
      (CreateCart.cartInputData input r cust sc).email =
        input.email.orElse (fun _ => c.email)) ∧
    (∀ c, cust.customer = some c → CreateCart.jsTruthyStr c.id = false →
      (CreateCart.cartInputData input r cust sc).customer_id = input.customer_id ∧
      (CreateCart.cartInputData input r cust sc).email = input.email) ∧
    (cust.customer = none →
      (CreateCart.cartInputData input r cust sc).customer_id = input.customer_id ∧
      (CreateCart.cartInputData input r cust sc).email = input.email) ∧
    (input.shipping_address = none → r.countries.length = 1 →
      (CreateCart.cartInputData input r cust sc).shipping_address =
        some { country_code := some (r.countries.headD { iso_2 := "" }).iso_2 }) ∧
    ((input.shipping_address.isNone && (r.countries.length == 1)) = false →
      (CreateCart.cartInputData input r cust sc).shipping_address =
        input.shipping_address) := by
  refine ⟨rfl, ?_, ?_, ?_, ?_, ?_, ?_⟩
  · simp only [CreateCart.cartInputData]
    rw [CreateCart.applyShipping_currency, CreateCart.applySalesChannel_currency,
      CreateCart.applyCustomer_currency]
    rfl
  · intro c hc ht
    simp only [CreateCart.cartInputData]
    constructor
    · rw [(CreateCart.applyShipping_customer _ _ _).1,
        (CreateCart.applySalesChannel_customer _ _).1]
      simp [CreateCart.applyCustomer, hc, ht]
    · rw [(CreateCart.applyShipping_customer _ _ _).2,
        (CreateCart.applySalesChannel_customer _ _).2]
      simp [CreateCart.applyCustomer, hc, ht]
  · intro c hc ht
    simp only [CreateCart.cartInputData]
    constructor
    · rw [(CreateCart.applyShipping_customer _ _ _).1,
        (CreateCart.applySalesChannel_customer _ _).1]
      simp [CreateCart.applyCustomer, CreateCart.baseCartData, hc, ht]
    · rw [(CreateCart.applyShipping_customer _ _ _).2,
        (CreateCart.applySalesChannel_customer _ _).2]
      simp [CreateCart.applyCustomer, CreateCart.baseCartData, hc, ht]
  · intro hc
    simp only [CreateCart.cartInputData]
    constructor
    · rw [(CreateCart.applyShipping_customer _ _ _).1,
        (CreateCart.applySalesChannel_customer _ _).1]
      simp [CreateCart.applyCustomer, CreateCart.baseCartData, hc]
    · rw [(CreateCart.applyShipping_customer _ _ _).2,
        (CreateCart.applySalesChannel_customer _ _).2]
      simp [CreateCart.applyCustomer, CreateCart.baseCartData, hc]
  · intro h1 h2
    simp only [CreateCart.cartInputData]
    simp [CreateCart.applyShipping, h1, h2]
  · intro h
    simp only [CreateCart.cartInputData]
    rw [CreateCart.applyShipping, if_neg (by simp [h])]
    rw [CreateCart.applySalesChannel_shipping, CreateCart.applyCustomer_shipping]
    rfl
